import Mathlib

/-!
Verification of the pipeline Reporter of fiaas-deploy-daemon
(src/fiaas_deploy_daemon/pipeline/reporter.py) and of the spec-level model of
the kubernetes adapter and deployment deriver, against the natural-language
specification of the repository.

The Reporter is embedded shallowly: its mutable dictionary of callback URLs
becomes an association list with Python-dict assignment semantics, signal
handlers become functions returning the new Reporter state together with the
list of HTTP POSTs they issue, and the fallible `session.post` call is
threaded explicitly in an `Except` rendering so that exception propagation is
observable.
-/

set_option autoImplicit false

namespace Fiaas

/-- Canonical application spec, restricted to the fields the verified claims
touch: name, version string, image reference, deployment id and user labels. -/
structure AppSpec where
  name : String
  version : String
  image : String
  deployment_id : String
  labels : List (String × String)
  deriving Repr, DecidableEq

/-- One outbound HTTP POST notification: target URL and JSON body rendered as
a list of key/value pairs. -/
structure Post where
  url : String
  json : List (String × String)
  deriving Repr, DecidableEq

/-- State of `Reporter` from reporter.py: environment and infrastructure taken
from the configuration, plus the `_callback_urls` dictionary, embedded as an
association list in insertion order. -/
structure Reporter where
  environment : String
  infrastructure : String
  callback_urls : List (String × String)
  deriving Repr, DecidableEq

/-- Python `dict.get`: first (and in reachable states only) binding of a key. -/
def dictGet (m : List (String × String)) (k : String) : Option String :=
  match m with
  | [] => none
  | (k', v) :: rest => if k' = k then some v else dictGet rest k

/-- Python `d[k] = v`: replace the value in place when the key is present,
append the binding otherwise. -/
def dictSet (m : List (String × String)) (k v : String) : List (String × String) :=
  match m with
  | [] => [(k, v)]
  | (k', v') :: rest => if k' = k then (k, v) :: rest else (k', v') :: dictSet rest k v

/-- Python `b.startswith("/")` for the posixpath separator. -/
def startsWithSep (s : String) : Bool :=
  s.data.headD ' ' = '/'

/-- Python `path.endswith("/")` for the posixpath separator. -/
def endsWithSep (s : String) : Bool :=
  s.data.getLastD ' ' = '/'

/-- One step of CPython `posixpath.join`: an absolute component resets the
path, otherwise the component is appended, inserting "/" unless the path is
empty or already ends with the separator. -/
def posixJoinStep (path b : String) : String :=
  if startsWithSep b then b
  else if path = "" ∨ endsWithSep path then path ++ b
  else path ++ "/" ++ b

/-- CPython `posixpath.join(a, *p)`. -/
def posixJoin (a : String) (p : List String) : String :=
  p.foldl posixJoinStep a

/-- The JSON body sent with every notification, from reporter.py line 37. -/
def notificationBody : List (String × String) :=
  [("description", "From fiaas-deploy-daemon")]

/-- `Reporter.register`: `self._callback_urls[deployment_id] = url`. -/
def Reporter.register (r : Reporter) (deployment_id url : String) : Reporter :=
  { r with callback_urls := dictSet r.callback_urls deployment_id url }

/-- Task name `"fiaas_{}-{}_{}".format(environment, infrastructure, event_name)`
built in `Reporter._handle_signal`. -/
def Reporter.task_name (r : Reporter) (event_name : String) : String :=
  "fiaas_" ++ r.environment ++ "-" ++ r.infrastructure ++ "_" ++ event_name

/-- `Reporter._handle_signal` in state-passing style: look up the callback URL
by deployment id; when it is present and truthy, join base URL, task name and
status and POST the notification body there; otherwise do nothing. Returns the
Reporter state after the call together with the POSTs issued. -/
def Reporter.handle_signal (r : Reporter) (event_name status : String) (app_spec : AppSpec) :
    Reporter × List Post :=
  match dictGet r.callback_urls app_spec.deployment_id with
  | none => (r, [])
  | some base_url =>
    if base_url = "" then (r, [])
    else
      let url := posixJoin base_url [r.task_name event_name, status]
      (r, [{ url := url, json := notificationBody }])

/-- `Reporter._handle_started`: `self._handle_signal(u"deploy_started", app_spec)`
with the default status `"success"`. -/
def Reporter.handle_started (r : Reporter) (app_spec : AppSpec) : Reporter × List Post :=
  r.handle_signal "deploy_started" "success" app_spec

/-- `Reporter._handle_success`: `self._handle_signal(u"deploy_end", app_spec)`
with the default status `"success"`. -/
def Reporter.handle_success (r : Reporter) (app_spec : AppSpec) : Reporter × List Post :=
  r.handle_signal "deploy_end" "success" app_spec

/-- `Reporter._handle_failure`: `self._handle_signal(u"deploy_end", app_spec,
status=u"failure")`. -/
def Reporter.handle_failure (r : Reporter) (app_spec : AppSpec) : Reporter × List Post :=
  r.handle_signal "deploy_end" "failure" app_spec

/-- `Reporter._handle_signal` with the fallible `self._session.post` threaded
explicitly: `session_post` is given the URL and the JSON body and may raise
(return `Except.error`). The method body contains no try/except, so an error
raised by the post leaves the handler as that same error. -/
def Reporter.handle_signal_exc {ε : Type} (r : Reporter)
    (session_post : String → List (String × String) → Except ε Unit)
    (event_name status : String) (app_spec : AppSpec) :
    Except ε (Reporter × List Post) :=
  match dictGet r.callback_urls app_spec.deployment_id with
  | none => Except.ok (r, [])
  | some base_url =>
    if base_url = "" then Except.ok (r, [])
    else
      let url := posixJoin base_url [r.task_name event_name, status]
      match session_post url notificationBody with
      | Except.error e => Except.error e
      | Except.ok _ => Except.ok (r, [{ url := url, json := notificationBody }])

/-- Modelled from the spec: `K8s._make_labels` of
fiaas_deploy_daemon/deployer/kubernetes/adapter.py is not under src (only its
tests are). The spec gives the label set as `{app: name, fiaas/version:
AppSpec.version, fiaas/deployed_by: controllerVersion, fiaas/deployment_id:
deploymentId, ...user-labels}`. -/
def make_labels (controllerVersion : String) (s : AppSpec) : List (String × String) :=
  [("app", s.name), ("fiaas/version", s.version),
   ("fiaas/deployed_by", controllerVersion), ("fiaas/deployment_id", s.deployment_id)]
    ++ s.labels

/-- Modelled from the spec: `_make_selector` of
fiaas_deploy_daemon/deployer/kubernetes/adapter.py is not under src (only its
tests are). The spec gives the selector as `{app: name}`. -/
def make_selector (s : AppSpec) : List (String × String) :=
  [("app", s.name)]

/-- Arguments passed to the three deployers in one `K8s.deploy` call:
deployment deployer and service deployer receive (app_spec, selector, labels),
the ingress deployer receives (app_spec, labels). -/
structure DeployCalls where
  deployment_args : AppSpec × List (String × String) × List (String × String)
  service_args : AppSpec × List (String × String) × List (String × String)
  ingress_args : AppSpec × List (String × String)
  deriving Repr, DecidableEq

/-- Modelled from the spec: `K8s.deploy` of
fiaas_deploy_daemon/deployer/kubernetes/adapter.py is not under src (only its
tests are). Per the spec the Reconciler computes the identity metadata once
and invokes each deriver with the AppSpec and that metadata; the service
deriver's selector is the identity-metadata selector, never the full label
set. -/
def K8s_deploy (controllerVersion : String) (s : AppSpec) : DeployCalls :=
  let selector := make_selector s
  let labels := make_labels controllerVersion s
  { deployment_args := (s, selector, labels)
    service_args := (s, selector, labels)
    ingress_args := (s, labels) }

/-- Python `str.split(sep)` for a one-character separator, over the character
list of the string: every occurrence of the separator splits, adjacent
separators yield empty segments, and the result is never the empty list. -/
def split_on_char (sep : Char) : List Char → List (List Char)
  | [] => [[]]
  | c :: cs =>
    let r := split_on_char sep cs
    if c = sep then [] :: r
    else
      match r with
      | [] => [[c]]
      | h :: t => (c :: h) :: t

/-- Python `image.split(":")[-1]`: the part of the image reference after the
last colon (the whole reference when it has no colon). -/
def image_tag (image : String) : String :=
  String.mk ((split_on_char ':' image.data).getLastD [])

/-- Modelled from the spec: the container env built by `DeploymentDeployer` of
fiaas_deploy_daemon/deployer/kubernetes/deployment.py is not under src (only
its tests are). Per the spec the environment variables include at least
`VERSION` (image tag) and `IMAGE` (full reference), injected automatically. -/
def deployment_env (s : AppSpec) : List (String × String) :=
  [("VERSION", image_tag s.image), ("IMAGE", s.image)]

/-- Container of the derived Deployment object: image reference plus injected
environment variables. -/
structure Container where
  image : String
  env : List (String × String)
  deriving Repr, DecidableEq

/-- Modelled from the spec: the Deployment deriver of
fiaas_deploy_daemon/deployer/kubernetes/deployment.py is not under src (only
its tests are). Per the spec it produces a Deployment whose container carries
the AppSpec's image and the injected environment variables. -/
def derive_deployment (s : AppSpec) : Container :=
  { image := s.image, env := deployment_env s }

/-! Helper lemmas about the dictionary embedding. -/

theorem dictGet_dictSet_self (m : List (String × String)) (k v : String) :
    dictGet (dictSet m k v) k = some v := by
  induction m with
  | nil => simp [dictSet, dictGet]
  | cons p rest ih =>
    obtain ⟨k', v'⟩ := p
    by_cases h : k' = k
    · simp [dictSet, dictGet, h]
    · simp [dictSet, dictGet, h, ih]

theorem dictGet_dictSet_ne (m : List (String × String)) (k v k2 : String) (h : k2 ≠ k) :
    dictGet (dictSet m k v) k2 = dictGet m k2 := by
  induction m with
  | nil => simp [dictSet, dictGet, Ne.symm h]
  | cons p rest ih =>
    obtain ⟨k', v'⟩ := p
    by_cases hk : k' = k
    · subst hk
      simp [dictSet, dictGet, Ne.symm h]
    · simp [dictSet, dictGet, hk, ih]

theorem split_on_char_ne_nil (sep : Char) (l : List Char) :
    split_on_char sep l ≠ [] := by
  induction l with
  | nil => simp [split_on_char]
  | cons c cs ih =>
    simp only [split_on_char]
    by_cases h : c = sep
    · simp [h]
    · simp only [h, if_false]
      cases hr : split_on_char sep cs with
      | nil => simp
      | cons hd tl => simp

theorem split_on_char_no_sep (sep : Char) (ys : List Char) (h : sep ∉ ys) :
    split_on_char sep ys = [ys] := by
  induction ys with
  | nil => simp [split_on_char]
  | cons c cs ih =>
    simp only [List.mem_cons, not_or] at h
    obtain ⟨h1, h2⟩ := h
    have hcs : split_on_char sep cs = [cs] := ih h2
    simp [split_on_char, hcs, Ne.symm h1]

theorem split_on_char_length_two (sep : Char) (l : List Char) (h : sep ∈ l) :
    2 ≤ (split_on_char sep l).length := by
  induction l with
  | nil => simp at h
  | cons c cs ih =>
    simp only [split_on_char]
    by_cases hc : c = sep
    · simp only [hc, if_pos rfl, List.length_cons]
      have := split_on_char_ne_nil sep cs
      cases hr : split_on_char sep cs with
      | nil => exact absurd hr this
      | cons hd tl => simp
    · have hmem : sep ∈ cs := by
        rcases List.mem_cons.mp h with h' | h'
        · exact absurd h'.symm hc
        · exact h'
      have := ih hmem
      simp only [hc, if_false]
      cases hr : split_on_char sep cs with
      | nil => exact absurd hr (split_on_char_ne_nil sep cs)
      | cons hd tl =>
        rw [hr] at this
        simpa using this

/-- Splitting a list that ends in `sep :: ys`, with no separator in `ys`,
yields `ys` as the last segment. -/
theorem split_on_char_last (sep : Char) (xs ys : List Char) (h : sep ∉ ys) :
    (split_on_char sep (xs ++ sep :: ys)).getLast? = some ys := by
  induction xs with
  | nil =>
    have hys : split_on_char sep ys = [ys] := split_on_char_no_sep sep ys h
    simp [split_on_char, hys]
  | cons x xs ih =>
    simp only [List.cons_append, split_on_char]
    by_cases hx : x = sep
    · subst hx
      rw [if_pos rfl]
      cases hr : split_on_char x (xs ++ x :: ys) with
      | nil => exact absurd hr (split_on_char_ne_nil x (xs ++ x :: ys))
      | cons hd tl =>
        rw [hr] at ih
        rw [List.getLast?_cons_cons]
        exact ih
    · simp only [hx, if_false]
      have hlen : 2 ≤ (split_on_char sep (xs ++ sep :: ys)).length :=
        split_on_char_length_two sep (xs ++ sep :: ys) (by simp)
      cases hr : split_on_char sep (xs ++ sep :: ys) with
      | nil => exact absurd hr (split_on_char_ne_nil sep (xs ++ sep :: ys))
      | cons hd tl =>
        rw [hr] at ih
        rw [hr] at hlen
        cases tl with
        | nil => simp at hlen
        | cons a b =>
          rw [List.getLast?_cons_cons]
          rw [List.getLast?_cons_cons] at ih
          exact ih

theorem dictGet_cons_self (k v : String) (m : List (String × String)) :
    dictGet ((k, v) :: m) k = some v := by
  simp [dictGet]

theorem dictGet_cons_ne (k v k2 : String) (m : List (String × String)) (h : ¬ k = k2) :
    dictGet ((k, v) :: m) k2 = dictGet m k2 := by
  simp [dictGet, h]

theorem task_name_deploy_started (r : Reporter) :
    r.task_name "deploy_started"
      = "fiaas_" ++ r.environment ++ "-" ++ r.infrastructure ++ "_deploy_started" := by
  have h : ("_" : String) ++ "deploy_started" = "_deploy_started" := by decide
  unfold Reporter.task_name
  simp only [String.append_assoc]
  rw [h]

/-- Concrete reporter used by the witnesses: environment "test", infrastructure
"gke", one callback registered for deployment id "deployment_id_1". -/
def reporterEx : Reporter :=
  { environment := "test", infrastructure := "gke",
    callback_urls := [("deployment_id_1", "http://cb.example.com/deploy")] }

/-- Concrete app spec used by the witnesses. -/
def appSpecEx : AppSpec :=
  { name := "testapp", version := "123", image := "finntech/application-name:123",
    deployment_id := "deployment_id_1", labels := [("team", "a")] }

/-- Concrete app spec whose deployment id has no registration in `reporterEx`. -/
def appSpecNoReg : AppSpec :=
  { name := "testapp", version := "123", image := "finntech/application-name:123",
    deployment_id := "deployment_id_2", labels := [] }

/-! Claim theorems. -/

/-- C1: for every application spec whose deployment id has a registered
(non-empty) callback URL, handling a started event issues exactly one outbound
POST, to the URL formed by joining the registered base URL, the task name
"fiaas_<environment>-<infrastructure>_deploy_started" and the status
"success", with JSON body description = "From fiaas-deploy-daemon". -/
theorem started_event_posts_exactly_one (r : Reporter) (s : AppSpec) (u : String)
    (hreg : dictGet r.callback_urls s.deployment_id = some u) (hne : u ≠ "") :
    (r.handle_started s).2 =
      [{ url := posixJoin u
            ["fiaas_" ++ r.environment ++ "-" ++ r.infrastructure ++ "_deploy_started",
             "success"],
         json := [("description", "From fiaas-deploy-daemon")] }] := by
  simp only [Reporter.handle_started, Reporter.handle_signal, hreg]
  rw [if_neg hne, task_name_deploy_started]
  rfl

/-- Witness for C1 at the concrete reporter and app spec. -/
theorem started_event_posts_exactly_one_witness :
    dictGet reporterEx.callback_urls appSpecEx.deployment_id
        = some "http://cb.example.com/deploy" ∧
    (reporterEx.handle_started appSpecEx).2 =
      [{ url := posixJoin "http://cb.example.com/deploy"
            ["fiaas_" ++ reporterEx.environment ++ "-" ++ reporterEx.infrastructure
               ++ "_deploy_started", "success"],
         json := [("description", "From fiaas-deploy-daemon")] }] :=
  ⟨by decide,
    started_event_posts_exactly_one reporterEx appSpecEx "http://cb.example.com/deploy"
      (by decide) (by decide)⟩

/-- C2 is refuted: with a callback registered for the app spec's deployment id
and a session whose post raises, the error escapes `_handle_signal` (there is
no try/except in the Reporter), instead of being caught and logged inside. -/
theorem notification_error_escapes_cx :
    reporterEx.handle_signal_exc
        (fun _ _ => Except.error "ConnectionError") "deploy_started" "success" appSpecEx
      = Except.error "ConnectionError" := by
  rfl

/-- C2 (amended): when a non-empty callback URL is registered for the app
spec's deployment id and the HTTP post raises an error, the Reporter's handler
propagates that same error to its caller; nothing inside the Reporter catches
it. -/
theorem notification_error_escapes {ε : Type} (r : Reporter) (s : AppSpec) (u : String)
    (e : ε) (event status : String)
    (hreg : dictGet r.callback_urls s.deployment_id = some u) (hne : u ≠ "") :
    r.handle_signal_exc (fun _ _ => Except.error e) event status s = Except.error e := by
  simp only [Reporter.handle_signal_exc, hreg]
  rw [if_neg hne]

/-- Witness for the amended C2 at the concrete reporter and app spec. -/
theorem notification_error_escapes_witness :
    dictGet reporterEx.callback_urls appSpecEx.deployment_id
        = some "http://cb.example.com/deploy" ∧
    reporterEx.handle_signal_exc
        (fun _ _ => Except.error "E") "deploy_end" "failure" appSpecEx
      = Except.error "E" :=
  ⟨by decide,
    notification_error_escapes reporterEx appSpecEx "http://cb.example.com/deploy"
      "E" "deploy_end" "failure" (by decide) (by decide)⟩

/-- C3 is refuted: registering a second URL for the same deployment id does
not leave the originally registered URL in place. -/
theorem register_overwrites_cx :
    dictGet (((Reporter.mk "test" "gke" []).register "d1" "http://first").register
        "d1" "http://second").callback_urls "d1"
      ≠ some "http://first" := by
  decide

/-- C3 (amended): `register` is last-write-wins per deployment id: after
`register(d, url2)` the mapping holds `url2` for `d`, and entries for every
other deployment id are unchanged. -/
theorem register_last_write_wins (r : Reporter) (d u2 d2 : String) (h : d2 ≠ d) :
    dictGet (r.register d u2).callback_urls d = some u2 ∧
    dictGet (r.register d u2).callback_urls d2 = dictGet r.callback_urls d2 :=
  ⟨dictGet_dictSet_self r.callback_urls d u2,
    dictGet_dictSet_ne r.callback_urls d u2 d2 h⟩

/-- Witness for the amended C3 at a concrete reporter. -/
theorem register_last_write_wins_witness :
    ("d2" : String) ≠ "d1" ∧
    dictGet ((reporterEx.register "d1" "http://second").callback_urls) "d1"
      = some "http://second" ∧
    dictGet ((reporterEx.register "d1" "http://second").callback_urls) "d2"
      = dictGet reporterEx.callback_urls "d2" :=
  ⟨by decide,
    (register_last_write_wins reporterEx "d1" "http://second" "d2" (by decide)).1,
    (register_last_write_wins reporterEx "d1" "http://second" "d2" (by decide)).2⟩

/-- C4: when the app spec's deployment id has no registered callback URL,
handling a started, succeeded or failed event issues zero outbound
notifications, and the fallible rendering returns without error for every
session and every event name and status (silent no-op). -/
theorem unregistered_event_is_silent_noop (r : Reporter) (s : AppSpec)
    (h : dictGet r.callback_urls s.deployment_id = none) :
    (r.handle_started s).2 = [] ∧ (r.handle_success s).2 = [] ∧
    (r.handle_failure s).2 = [] ∧
    ∀ (ε : Type) (sess : String → List (String × String) → Except ε Unit)
      (event status : String),
      r.handle_signal_exc sess event status s = Except.ok (r, []) := by
  refine ⟨?_, ?_, ?_, ?_⟩
  · simp only [Reporter.handle_started, Reporter.handle_signal, h]
  · simp only [Reporter.handle_success, Reporter.handle_signal, h]
  · simp only [Reporter.handle_failure, Reporter.handle_signal, h]
  · intro ε sess event status
    simp only [Reporter.handle_signal_exc, h]

/-- Witness for C4 at a deployment id with no registration. -/
theorem unregistered_event_is_silent_noop_witness :
    dictGet reporterEx.callback_urls appSpecNoReg.deployment_id = none ∧
    (reporterEx.handle_started appSpecNoReg).2 = [] ∧
    reporterEx.handle_signal_exc
        (fun _ _ => Except.error "E") "deploy_started" "success" appSpecNoReg
      = Except.ok (reporterEx, []) :=
  ⟨by decide,
    (unregistered_event_is_silent_noop reporterEx appSpecNoReg (by decide)).1,
    (unregistered_event_is_silent_noop reporterEx appSpecNoReg (by decide)).2.2.2
      String (fun _ _ => Except.error "E") "deploy_started" "success"⟩

/-- C5: the Reporter maps lifecycle events to notification event names and
statuses exactly as follows: a started event posts with event name
deploy_started and status success, a succeeded event with deploy_end and
success, a failed event with deploy_end and failure; as the three handlers are
the only entry points and the unregistered case posts nothing, no other event
name or status is ever used. -/
theorem event_name_status_mapping (r : Reporter) (s : AppSpec) (u : String)
    (hreg : dictGet r.callback_urls s.deployment_id = some u) (hne : u ≠ "") :
    (r.handle_started s).2 =
      [{ url := posixJoin u [r.task_name "deploy_started", "success"],
         json := notificationBody }] ∧
    (r.handle_success s).2 =
      [{ url := posixJoin u [r.task_name "deploy_end", "success"],
         json := notificationBody }] ∧
    (r.handle_failure s).2 =
      [{ url := posixJoin u [r.task_name "deploy_end", "failure"],
         json := notificationBody }] := by
  refine ⟨?_, ?_, ?_⟩
  · simp only [Reporter.handle_started, Reporter.handle_signal, hreg]
    rw [if_neg hne]
  · simp only [Reporter.handle_success, Reporter.handle_signal, hreg]
    rw [if_neg hne]
  · simp only [Reporter.handle_failure, Reporter.handle_signal, hreg]
    rw [if_neg hne]

/-- Witness for C5 at the concrete reporter and app spec. -/
theorem event_name_status_mapping_witness :
    dictGet reporterEx.callback_urls appSpecEx.deployment_id
        = some "http://cb.example.com/deploy" ∧
    (reporterEx.handle_failure appSpecEx).2 =
      [{ url := posixJoin "http://cb.example.com/deploy"
            [reporterEx.task_name "deploy_end", "failure"],
         json := notificationBody }] :=
  ⟨by decide,
    (event_name_status_mapping reporterEx appSpecEx "http://cb.example.com/deploy"
      (by decide) (by decide)).2.2⟩

/-- C6: for every valid AppSpec the derived identity metadata's selector
equals exactly app = name, the label set is a superset of the selector, and
the labels contain at least app = name, fiaas/version = the AppSpec's version
and fiaas/deployed_by = the controller version. -/
theorem identity_metadata_selector_labels (cv : String) (s : AppSpec) :
    make_selector s = [("app", s.name)] ∧
    (∀ k v, dictGet (make_selector s) k = some v → dictGet (make_labels cv s) k = some v) ∧
    dictGet (make_labels cv s) "app" = some s.name ∧
    dictGet (make_labels cv s) "fiaas/version" = some s.version ∧
    dictGet (make_labels cv s) "fiaas/deployed_by" = some cv := by
  refine ⟨rfl, ?_, ?_, ?_, ?_⟩
  · intro k v hkv
    simp only [make_selector, dictGet] at hkv
    by_cases hk : "app" = k
    · subst hk
      rw [if_pos rfl] at hkv
      simp only [Option.some.injEq] at hkv
      subst hkv
      simp [make_labels, dictGet_cons_self]
    · rw [if_neg hk] at hkv
      cases hkv
  · simp [make_labels, dictGet_cons_self]
  · rw [make_labels, List.cons_append, dictGet_cons_ne _ _ _ _ (by decide)]
    simp [dictGet_cons_self]
  · rw [make_labels, List.cons_append, dictGet_cons_ne _ _ _ _ (by decide),
      List.cons_append, dictGet_cons_ne _ _ _ _ (by decide)]
    simp [dictGet_cons_self]

/-- Witness for C6 at the concrete app spec, discharging the superset
implication at the selector entry. -/
theorem identity_metadata_selector_labels_witness :
    dictGet (make_selector appSpecEx) "app" = some "testapp" ∧
    dictGet (make_labels "1.2" appSpecEx) "app" = some "testapp" :=
  ⟨by decide,
    (identity_metadata_selector_labels "1.2" appSpecEx).2.1 "app" "testapp" (by decide)⟩

/-- C7: one deploy call passes the app spec, the selector and the labels to
the deployment deployer and to the service deployer, and the app spec and the
labels to the ingress deployer, where selector and labels are the identity
metadata computed once from the spec; the service's selector argument is the
identity-metadata selector and never the full label set. -/
theorem deploy_passes_identity_once (cv : String) (s : AppSpec) :
    (K8s_deploy cv s).deployment_args = (s, make_selector s, make_labels cv s) ∧
    (K8s_deploy cv s).service_args = (s, make_selector s, make_labels cv s) ∧
    (K8s_deploy cv s).ingress_args = (s, make_labels cv s) ∧
    (K8s_deploy cv s).service_args.2.1 = make_selector s ∧
    make_selector s ≠ make_labels cv s := by
  refine ⟨rfl, rfl, rfl, rfl, ?_⟩
  intro heq
  have hlen := congrArg List.length heq
  simp only [make_selector, make_labels, List.length_append, List.length_cons,
    List.length_nil] at hlen
  omega

/-- C8: given the image reference decomposed around its last colon, the
derived Deployment container carries env var VERSION equal to the image tag,
the part of the image reference after the last colon, and env var IMAGE equal
to the full image reference; the container image is the full reference. -/
theorem deployment_env_version_and_image (s : AppSpec) (xs ys : List Char)
    (himg : s.image.data = xs ++ ':' :: ys) (hys : ':' ∉ ys) :
    dictGet (derive_deployment s).env "VERSION" = some (image_tag s.image) ∧
    dictGet (derive_deployment s).env "IMAGE" = some s.image ∧
    (derive_deployment s).image = s.image ∧
    image_tag s.image = String.mk ys := by
  refine ⟨?_, ?_, rfl, ?_⟩
  · simp [derive_deployment, deployment_env, dictGet_cons_self]
  · rw [derive_deployment, deployment_env, dictGet_cons_ne _ _ _ _ (by decide)]
    simp [dictGet_cons_self]
  · unfold image_tag
    rw [himg, List.getLastD_eq_getLast?, split_on_char_last ':' xs ys hys]
    rfl

/-- Witness for C8 at the concrete image reference. -/
theorem deployment_env_version_and_image_witness :
    appSpecEx.image.data = "finntech/application-name".data ++ ':' :: "123".data ∧
    image_tag appSpecEx.image = "123" :=
  ⟨by decide,
    (deployment_env_version_and_image appSpecEx "finntech/application-name".data
      "123".data (by decide) (by decide)).2.2.2⟩

/-- C9: handling any of the three lifecycle events leaves the callback
registration mapping of the Reporter unchanged: no entry is added, removed or
rewritten. -/
theorem events_preserve_registrations (r : Reporter) (s : AppSpec) :
    (r.handle_started s).1.callback_urls = r.callback_urls ∧
    (r.handle_success s).1.callback_urls = r.callback_urls ∧
    (r.handle_failure s).1.callback_urls = r.callback_urls := by
  refine ⟨?_, ?_, ?_⟩ <;>
  · simp only [Reporter.handle_started, Reporter.handle_success, Reporter.handle_failure,
      Reporter.handle_signal]
    split
    · rfl
    · split <;> rfl

/-- C10: registering an empty string as the callback URL for a deployment id
makes every subsequent event for that deployment id issue zero outbound
notifications, the same observable behavior as no registration. -/
theorem falsy_url_registration_no_posts (r : Reporter) (s : AppSpec) :
    ((r.register s.deployment_id "").handle_started s).2 = [] ∧
    ((r.register s.deployment_id "").handle_success s).2 = [] ∧
    ((r.register s.deployment_id "").handle_failure s).2 = [] := by
  refine ⟨?_, ?_, ?_⟩ <;>
  · simp only [Reporter.handle_started, Reporter.handle_success, Reporter.handle_failure,
      Reporter.handle_signal, Reporter.register]
    rw [dictGet_dictSet_self]
    simp

end Fiaas
